import Mathlib

/-!
Shallow embedding of the prompt-library core (src/app.py of the
kiro-prompt-library repository).

The app keeps a single flat list of prompt records in a JSON file.  Every
operation is load → (pure transformation) → save, so the whole core is
faithfully modelled as pure functions on `List Prompt`.  Python floats for
the running-mean rating are modelled as exact rationals `ℚ`; Python ints as
`Nat`/`Int`; the ISO `created_at` timestamp as a `String` compared
lexicographically, exactly as Python compares it.
-/

/-- A prompt record, mirroring the dict created in `add_prompt`
(src/app.py lines 45-57) field by field. -/
structure Prompt where
  id : Nat
  title : String
  category : String
  prompt : String
  author : String
  tags : List String
  rating : ℚ
  votes : Nat
  usage_count : Nat
  created_at : String
  comments : List String
  deriving Repr, DecidableEq

/-- `add_prompt` (src/app.py lines 42-60): builds the new record with
`id = len(prompts) + 1` and zeroed counters, appends it and saves.
`now` stands for `datetime.now().isoformat()`.  Returns the created record
together with the persisted collection. -/
def add_prompt (title category prompt author : String) (tags : List String)
    (now : String) (prompts : List Prompt) : Prompt × List Prompt :=
  let new_prompt : Prompt :=
    { id := prompts.length + 1
      title := title
      category := category
      prompt := prompt
      author := author
      tags := tags
      rating := 0
      votes := 0
      usage_count := 0
      created_at := now
      comments := [] }
  (new_prompt, prompts ++ [new_prompt])

/-- `update_usage` (src/app.py lines 62-69): linear scan, increment
`usage_count` of the first record whose `id` matches, `break`; records after
the first match are untouched, and a missing id leaves the list unchanged. -/
def update_usage (prompt_id : Nat) : List Prompt → List Prompt
  | [] => []
  | p :: ps =>
    if p.id = prompt_id then
      { p with usage_count := p.usage_count + 1 } :: ps
    else
      p :: update_usage prompt_id ps

/-- `add_rating` (src/app.py lines 71-79): linear scan for the first record
with matching `id`, recompute the running mean
`(rating * votes + r) / (votes + 1)`, increment `votes`, `break`. -/
def add_rating (prompt_id : Nat) (rating : Int) : List Prompt → List Prompt
  | [] => []
  | p :: ps =>
    if p.id = prompt_id then
      { p with
          rating := (p.rating * (p.votes : ℚ) + (rating : ℚ)) / ((p.votes : ℚ) + 1)
          votes := p.votes + 1 } :: ps
    else
      p :: add_rating prompt_id rating ps

/-- The Browse-page search predicate (src/app.py lines 122-127): the lowered
search term must occur as a substring of the lowered title, the lowered
prompt body, or some lowered tag.  Python's `a in b` on strings is contiguous
substring containment, i.e. `List.IsInfix` on the character lists. -/
def matches_search (search_lower : String) (p : Prompt) : Bool :=
  decide (search_lower.data <:+: p.title.toLower.data) ||
  decide (search_lower.data <:+: p.prompt.toLower.data) ||
  p.tags.any (fun tag => decide (search_lower.data <:+: tag.toLower.data))

/-- The Browse-page search filter (src/app.py lines 122-127): an empty search
box is falsy in Python, so `if search:` skips the filter entirely. -/
def search_filter (search : String) (prompts : List Prompt) : List Prompt :=
  if search = "" then prompts
  else prompts.filter (matches_search search.toLower)

/-- Descending stable sort by a key, modelling Python's stable
`sorted(prompts, key=..., reverse=True)`.  `insertionSort` with the
non-strict relation `key q ≤ key p` is stable and sorts descending, which is
extensionally the unique stable descending sort Python produces. -/
def sortByKey {β : Type} [LinearOrder β] (key : Prompt → β)
    (prompts : List Prompt) : List Prompt :=
  prompts.insertionSort (fun p q => key q ≤ key p)

/-- The three sort options of the Browse page (src/app.py lines 130-135). -/
inductive SortKey where
  | recent
  | usage
  | rating
  deriving Repr, DecidableEq

/-- Dispatch of the `sort_by` branches (src/app.py lines 130-135):
"Most Recent" sorts by `created_at`, "Most Used" by `usage_count`,
"Highest Rated" by `rating`, each descending. -/
def sort_prompts : SortKey → List Prompt → List Prompt
  | .recent => sortByKey Prompt.created_at
  | .usage => sortByKey Prompt.usage_count
  | .rating => sortByKey Prompt.rating

/-- `avg_rating` of the Statistics page (src/app.py line 204):
`sum(rating for votes>0) / len([votes>0])` guarded by `any(votes>0)`,
else `0`. -/
def avg_rating (prompts : List Prompt) : ℚ :=
  if prompts.any (fun p => decide (0 < p.votes)) then
    ((prompts.filter (fun p => decide (0 < p.votes))).map Prompt.rating).sum /
      ((prompts.filter (fun p => decide (0 < p.votes))).length : ℚ)
  else 0

/-- `top_used` (src/app.py line 216): sort descending by `usage_count`,
take the first five. -/
def top_used (prompts : List Prompt) : List Prompt :=
  (sortByKey Prompt.usage_count prompts).take 5

/-- `top_rated` (src/app.py line 222): keep only records with `votes > 0`,
sort descending by `rating`, take the first five. -/
def top_rated (prompts : List Prompt) : List Prompt :=
  (sortByKey Prompt.rating (prompts.filter (fun p => decide (0 < p.votes)))).take 5

/-- Tag parsing of the Submit page (src/app.py line 185):
`[tag.strip() for tag in tags_input.split(",") if tag.strip()]`. -/
def parse_tags (tags_input : String) : List String :=
  ((tags_input.splitOn ",").map String.trim).filter (fun tag => tag != "")

/-- Outcome shown by the Submit page: either the validation error message or
a success banner for the created record. -/
inductive SubmitOutcome where
  | validation_error
  | submitted (new_prompt : Prompt)
  deriving Repr, DecidableEq

/-- The Submit-page handler (src/app.py lines 181-188): Python's
`not all([title, category, prompt, author])` is true when some required field
is the empty string, in which case only an error is rendered and nothing is
written; otherwise the tags are parsed and `add_prompt` runs. -/
def submit_prompt_page (title category prompt author tags_input now : String)
    (prompts : List Prompt) : SubmitOutcome × List Prompt :=
  if title = "" ∨ category = "" ∨ prompt = "" ∨ author = "" then
    (.validation_error, prompts)
  else
    let r := add_prompt title category prompt author (parse_tags tags_input) now prompts
    (.submitted r.1, r.2)

/-- Maximum `id` occurring in a collection (0 for the empty collection); used
to state the spec's "previous max id + 1" claim.  The code itself never
computes this: it uses `len(prompts) + 1`. -/
def max_id (prompts : List Prompt) : Nat :=
  prompts.foldr (fun p m => max p.id m) 0

/-- A concrete record used for witnesses and counterexamples. -/
def samplePrompt (i : Nat) : Prompt :=
  { id := i
    title := "T"
    category := "Testing"
    prompt := "body"
    author := "Alice"
    tags := []
    rating := 0
    votes := 0
    usage_count := 0
    created_at := "2024-01-01T00:00:00"
    comments := [] }

/-- A concrete record that has received ratings, for witnesses. -/
def ratedSample : Prompt :=
  { samplePrompt 1 with rating := 4, votes := 2 }

/-- Spec-side definition, following the spec's words for `averageRating`:
"mean of `rating` over records with `votes > 0`; defined as 0 when no record
has `votes > 0`".  To be compared with `avg_rating` from the source. -/
def averageRating_spec (coll : List Prompt) : ℚ :=
  if (coll.filter (fun p => decide (0 < p.votes))).length = 0 then 0
  else ((coll.filter (fun p => decide (0 < p.votes))).map Prompt.rating).sum /
    ((coll.filter (fun p => decide (0 < p.votes))).length : ℚ)

/-- Spec-side definition of `topByUsage(coll, n)`: "descending sort (as in
Query Engine) then take first n". -/
def topByUsage_spec (n : Nat) (coll : List Prompt) : List Prompt :=
  (sort_prompts .usage coll).take n

/-- Spec-side definition of `topByRating(coll, n)`: "must first exclude
`votes == 0` records", then descending sort by rating, take first n. -/
def topByRating_spec (n : Nat) (coll : List Prompt) : List Prompt :=
  (sort_prompts .rating (coll.filter (fun p => decide (0 < p.votes)))).take n

/-! ### Frame lemmas for the two in-place mutators -/

/-- The loop body of `add_rating` (src/app.py lines 76-77) applied to the
matched record: running-mean update and vote increment, nothing else. -/
def rate_record (rating : Int) (p : Prompt) : Prompt :=
  { p with
      rating := (p.rating * (p.votes : ℚ) + (rating : ℚ)) / ((p.votes : ℚ) + 1)
      votes := p.votes + 1 }

theorem update_usage_frame (i : Nat) (l₁ l₂ : List Prompt) (p : Prompt)
    (h₁ : ∀ q ∈ l₁, q.id ≠ i) (h₂ : p.id = i) :
    update_usage i (l₁ ++ p :: l₂) =
      l₁ ++ { p with usage_count := p.usage_count + 1 } :: l₂ := by
  induction l₁ with
  | nil => simp [update_usage, h₂]
  | cons q l ih =>
    have hq : q.id ≠ i := h₁ q (List.mem_cons_self q l)
    simp only [List.cons_append, update_usage, if_neg hq]
    exact congrArg (q :: ·) (ih fun u hu => h₁ u (List.mem_cons_of_mem q hu))

theorem add_rating_frame (i : Nat) (r : Int) (l₁ l₂ : List Prompt) (p : Prompt)
    (h₁ : ∀ q ∈ l₁, q.id ≠ i) (h₂ : p.id = i) :
    add_rating i r (l₁ ++ p :: l₂) = l₁ ++ rate_record r p :: l₂ := by
  induction l₁ with
  | nil => simp [add_rating, h₂, rate_record]
  | cons q l ih =>
    have hq : q.id ≠ i := h₁ q (List.mem_cons_self q l)
    simp only [List.cons_append, add_rating, if_neg hq]
    exact congrArg (q :: ·) (ih fun u hu => h₁ u (List.mem_cons_of_mem q hu))

theorem update_usage_not_found (i : Nat) (l : List Prompt)
    (h : ∀ q ∈ l, q.id ≠ i) : update_usage i l = l := by
  induction l with
  | nil => rfl
  | cons q l ih =>
    have hq : q.id ≠ i := h q (List.mem_cons_self q l)
    simp only [update_usage, if_neg hq]
    exact congrArg (q :: ·) (ih fun u hu => h u (List.mem_cons_of_mem q hu))

theorem add_rating_not_found (i : Nat) (r : Int) (l : List Prompt)
    (h : ∀ q ∈ l, q.id ≠ i) : add_rating i r l = l := by
  induction l with
  | nil => rfl
  | cons q l ih =>
    have hq : q.id ≠ i := h q (List.mem_cons_self q l)
    simp only [add_rating, if_neg hq]
    exact congrArg (q :: ·) (ih fun u hu => h u (List.mem_cons_of_mem q hu))

theorem rate_record_id (r : Int) (p : Prompt) : (rate_record r p).id = p.id := rfl

theorem add_rating_foldl (i : Nat) (l₁ l₂ : List Prompt) (rs : List Int) :
    ∀ p : Prompt, (∀ q ∈ l₁, q.id ≠ i) → p.id = i →
      rs.foldl (fun c r => add_rating i r c) (l₁ ++ p :: l₂) =
        l₁ ++ rs.foldl (fun q r => rate_record r q) p :: l₂ := by
  induction rs with
  | nil => intro p _ _; rfl
  | cons r rs ih =>
    intro p h₁ h₂
    simp only [List.foldl_cons]
    rw [add_rating_frame i r l₁ l₂ p h₁ h₂]
    exact ih (rate_record r p) h₁ (by rw [rate_record_id]; exact h₂)

/-- Folding the rating step over a record with a nonzero vote count keeps the
running mean exact: the final rating is the vote-weighted mean of the old
rating and all new values, and the vote count adds up. -/
theorem rate_record_foldl_pos (rs : List Int) :
    ∀ p : Prompt, p.votes ≠ 0 →
      rs.foldl (fun q r => rate_record r q) p =
        { p with
            rating := (p.rating * (p.votes : ℚ) + ((rs.map fun r : Int => (r : ℚ)).sum)) /
              ((p.votes : ℚ) + (rs.length : ℚ))
            votes := p.votes + rs.length } := by
  induction rs with
  | nil =>
    intro p hv
    obtain ⟨i, t, c, b, a, tg, ρ, v, u, d, cm⟩ := p
    simp only [List.foldl_nil, List.map_nil, List.sum_nil, List.length_nil, Nat.cast_zero,
      add_zero, Prompt.mk.injEq, and_true, true_and]
    have hv' : (v : ℚ) ≠ 0 := by exact_mod_cast hv
    rw [mul_div_assoc, div_self hv', mul_one]
  | cons r rs ih =>
    intro p hv
    have hv1 : ((p.votes : ℚ) + 1) ≠ 0 := by positivity
    simp only [List.foldl_cons]
    rw [ih (rate_record r p) (by simp [rate_record])]
    obtain ⟨i, t, c, b, a, tg, ρ, v, u, d, cm⟩ := p
    simp only [rate_record] at hv1 ⊢
    simp only [Prompt.mk.injEq, and_true, true_and, List.map_cons, List.sum_cons,
      List.length_cons]
    constructor
    · push_cast
      rw [div_mul_cancel₀ _ hv1]
      ring_nf
    · omega

/-- Starting from a fresh record (`rating = 0`, `votes = 0`), folding the
rating step over `rs` leaves exactly the mean of `rs` and `votes = |rs|`
(with `sum / 0 = 0` for the empty list, matching the untouched record). -/
theorem rate_record_foldl_mean (rs : List Int) (p : Prompt)
    (h₃ : p.rating = 0) (h₄ : p.votes = 0) :
    rs.foldl (fun q r => rate_record r q) p =
      { p with
          rating := ((rs.map fun r : Int => (r : ℚ)).sum) / (rs.length : ℚ)
          votes := rs.length } := by
  cases rs with
  | nil =>
    obtain ⟨i, t, c, b, a, tg, ρ, v, u, d, cm⟩ := p
    simp only at h₃ h₄
    subst h₃; subst h₄
    simp
  | cons r rs =>
    rw [List.foldl_cons, rate_record_foldl_pos rs (rate_record r p) (by simp [rate_record])]
    obtain ⟨i, t, c, b, a, tg, ρ, v, u, d, cm⟩ := p
    simp only at h₃ h₄
    subst h₃; subst h₄
    simp only [rate_record, Prompt.mk.injEq, and_true, true_and, List.map_cons, List.sum_cons,
      List.length_cons, Nat.cast_zero, zero_mul, zero_add, mul_one, Nat.cast_one]
    constructor
    · push_cast
      ring_nf
    · omega

/-! ### Sorting: permutation, sortedness, stability, idempotence -/

theorem sortByKey_perm {β : Type} [LinearOrder β] (key : Prompt → β) (l : List Prompt) :
    (sortByKey key l).Perm l :=
  List.perm_insertionSort _ l

theorem sortByKey_sorted {β : Type} [LinearOrder β] (key : Prompt → β) (l : List Prompt) :
    (sortByKey key l).Sorted (fun p q => key q ≤ key p) := by
  haveI : IsTotal Prompt fun p q => key q ≤ key p := ⟨fun a b => le_total (key b) (key a)⟩
  haveI : IsTrans Prompt fun p q => key q ≤ key p :=
    ⟨fun _ _ _ hab hbc => le_trans hbc hab⟩
  exact List.sorted_insertionSort _ l

theorem orderedInsert_filter_ne {β : Type} [LinearOrder β] (key : Prompt → β) (v : β)
    (a : Prompt) (ha : key a ≠ v) (l : List Prompt) :
    (l.orderedInsert (fun p q => key q ≤ key p) a).filter (fun p => decide (key p = v)) =
      l.filter (fun p => decide (key p = v)) := by
  induction l with
  | nil => simp [ha]
  | cons b t ih =>
    by_cases hab : key b ≤ key a
    · simp [List.orderedInsert, hab, List.filter_cons, ha]
    · simp only [List.orderedInsert, if_neg hab, List.filter_cons]
      rw [ih]

theorem orderedInsert_filter_eq {β : Type} [LinearOrder β] (key : Prompt → β)
    (a : Prompt) (l : List Prompt) :
    (l.orderedInsert (fun p q => key q ≤ key p) a).filter
        (fun p => decide (key p = key a)) =
      a :: l.filter (fun p => decide (key p = key a)) := by
  induction l with
  | nil => simp
  | cons b t ih =>
    by_cases hab : key b ≤ key a
    · simp [List.orderedInsert, hab, List.filter_cons]
    · have hb : key b ≠ key a := fun h => hab (le_of_eq h)
      simp only [List.orderedInsert, if_neg hab, List.filter_cons, hb, decide_eq_true_eq,
        if_false]
      rw [ih]

/-- Stability of the descending sort: for every key value `v`, the records
whose key equals `v` appear in the output in their original relative order
(their `filter` sublists coincide). -/
theorem sortByKey_filter_key {β : Type} [LinearOrder β] (key : Prompt → β) (v : β)
    (l : List Prompt) :
    (sortByKey key l).filter (fun p => decide (key p = v)) =
      l.filter (fun p => decide (key p = v)) := by
  induction l with
  | nil => rfl
  | cons a t ih =>
    show (List.orderedInsert _ a (sortByKey key t)).filter _ = _
    by_cases hav : key a = v
    · subst hav
      rw [orderedInsert_filter_eq, ih, List.filter_cons, if_pos (by simp)]
    · rw [orderedInsert_filter_ne key v a hav, ih, List.filter_cons,
        if_neg (by simp [hav])]

theorem sortByKey_idem {β : Type} [LinearOrder β] (key : Prompt → β) (l : List Prompt) :
    sortByKey key (sortByKey key l) = sortByKey key l :=
  (sortByKey_sorted key l).insertionSort_eq

/-! ### The maximum id of a collection whose ids are consecutive -/

theorem max_id_eq (l : List Prompt) : max_id l = (l.map Prompt.id).foldr max 0 := by
  induction l with
  | nil => rfl
  | cons p t ih =>
    simp only [max_id, List.foldr_cons, List.map_cons] at ih ⊢
    rw [ih]

theorem foldr_max_range' (n : Nat) : ∀ s : Nat,
    (List.range' s n).foldr max 0 = if n = 0 then 0 else s + n - 1 := by
  induction n with
  | zero => intro s; rfl
  | succ m ih =>
    intro s
    rw [List.range'_succ, List.foldr_cons, ih (s + 1)]
    cases m with
    | zero => simp
    | succ k =>
      simp only [Nat.succ_ne_zero, if_false]
      omega

theorem max_id_consecutive (l : List Prompt)
    (h : l.map Prompt.id = List.range' 1 l.length) : max_id l = l.length := by
  rw [max_id_eq, h, foldr_max_range']
  split <;> omega

theorem update_usage_iterate (i k : Nat) (l₁ l₂ : List Prompt) :
    ∀ p : Prompt, (∀ q ∈ l₁, q.id ≠ i) → p.id = i →
      (update_usage i)^[k] (l₁ ++ p :: l₂) =
        l₁ ++ { p with usage_count := p.usage_count + k } :: l₂ := by
  induction k with
  | zero => intro p h₁ h₂; simp
  | succ m ih =>
    intro p h₁ h₂
    rw [Function.iterate_succ_apply, update_usage_frame i l₁ l₂ p h₁ h₂,
      ih { p with usage_count := p.usage_count + 1 } h₁ h₂]
    obtain ⟨pi, t, c, b, a, tg, ρ, v, u, d, cm⟩ := p
    simp only [Prompt.mk.injEq, and_true, true_and, List.append_cancel_left_eq,
      List.cons.injEq, and_true, true_and]
    omega

/-! ### Claim theorems -/

/-- C1 (amended): for every collection — no matter its ids — `add_prompt`
followed by load yields a collection exactly one longer, and the new
record's id is the previous length + 1.  When the collection's ids are
exactly `1..n` in order — every state reachable through `add_prompt` alone,
including the empty collection — this also equals the previous maximum
id + 1 (or 1 when empty). -/
theorem addPrompt_grows_and_assigns_count_id (title category prompt author : String)
    (tags : List String) (now : String) (coll : List Prompt) :
    (add_prompt title category prompt author tags now coll).2.length = coll.length + 1 ∧
    (add_prompt title category prompt author tags now coll).1.id = coll.length + 1 ∧
    (coll.map Prompt.id = List.range' 1 coll.length →
      (add_prompt title category prompt author tags now coll).1.id = max_id coll + 1) := by
  refine ⟨by simp [add_prompt], rfl, fun h => ?_⟩
  rw [max_id_consecutive coll h]
  rfl

/-- C1 witness: on the singleton collection with id 1, `add_prompt` grows the
collection to length 2 and assigns id 2 = max id + 1. -/
theorem addPrompt_grows_witness :
    (add_prompt "T2" "Testing" "body" "Alice" [] "2024-01-02T00:00:00"
        [samplePrompt 1]).2.length = [samplePrompt 1].length + 1 ∧
    (add_prompt "T2" "Testing" "body" "Alice" [] "2024-01-02T00:00:00"
        [samplePrompt 1]).1.id = max_id [samplePrompt 1] + 1 := by
  have h := addPrompt_grows_and_assigns_count_id "T2" "Testing" "body" "Alice" []
    "2024-01-02T00:00:00" [samplePrompt 1]
  exact ⟨h.1, h.2.2 (by decide)⟩

/-- C1 counterexample: on a collection holding a single record with id 5,
`add_prompt` assigns id `len + 1 = 2`, not `max id + 1 = 6`, refuting the
claim for arbitrary collection states. -/
theorem addPrompt_max_id_counterexample :
    (add_prompt "T" "Testing" "body" "Alice" [] "2024-01-02T00:00:00"
        [samplePrompt 5]).1.id ≠ max_id [samplePrompt 5] + 1 := by
  decide

/-- C2 counterexample: calling the mutator `add_prompt` itself with an empty
title still performs the write (the collection changes), so no
required-field validation happens inside the mutator and no error is
surfaced there. -/
theorem addPrompt_no_validation_counterexample :
    (add_prompt "" "Testing" "body" "Alice" [] "2024-01-02T00:00:00" []).2 ≠ [] := by
  decide

/-- C2 (amended): the non-empty check on title, category, prompt and author
lives in the Submit-page caller, which surfaces the validation error and
performs no write — never invoking `add_prompt` — when a required field is
empty, and otherwise runs `add_prompt`; `add_prompt` itself performs no
validation and appends unconditionally, even with an empty title. -/
theorem submit_validation_at_caller (title category prompt author tags_input now : String)
    (coll : List Prompt) :
    ((title = "" ∨ category = "" ∨ prompt = "" ∨ author = "") →
      submit_prompt_page title category prompt author tags_input now coll =
        (SubmitOutcome.validation_error, coll)) ∧
    (title ≠ "" → category ≠ "" → prompt ≠ "" → author ≠ "" →
      submit_prompt_page title category prompt author tags_input now coll =
        (SubmitOutcome.submitted
          (add_prompt title category prompt author (parse_tags tags_input) now coll).1,
          (add_prompt title category prompt author (parse_tags tags_input) now coll).2)) ∧
    ∀ c : List Prompt,
      (add_prompt "" category prompt author (parse_tags tags_input) now c).2 =
        c ++ [(add_prompt "" category prompt author (parse_tags tags_input) now c).1] := by
  refine ⟨fun h => ?_, fun h1 h2 h3 h4 => ?_, fun c => rfl⟩
  · simp only [submit_prompt_page, if_pos h]
  · simp only [submit_prompt_page]
    rw [if_neg]
    push_neg
    exact ⟨h1, h2, h3, h4⟩

/-- C2 witness: an empty title makes the Submit page surface the validation
error and leave the (empty) collection unchanged. -/
theorem submit_validation_witness :
    submit_prompt_page "" "Testing" "body" "Alice" "" "2024-01-02T00:00:00" [] =
      (SubmitOutcome.validation_error, []) :=
  (submit_validation_at_caller "" "Testing" "body" "Alice" "" "2024-01-02T00:00:00" []).1
    (Or.inl rfl)

/-- C3: starting from a record with rating 0 and votes 0, applying
`add_rating` with values `r1..rk` (each in `[1,5]`) yields exactly
`rating = mean(r1..rk)` and `votes = k` (over exact rational arithmetic);
and each individual step computes
`newRating = (oldRating * oldVotes + r) / (oldVotes + 1)` and bumps votes. -/
theorem addRating_running_mean (i : Nat) (l₁ l₂ : List Prompt) (p : Prompt)
    (rs : List Int) (h₁ : ∀ q ∈ l₁, q.id ≠ i) (h₂ : p.id = i)
    (h₃ : p.rating = 0) (h₄ : p.votes = 0) (_h₅ : ∀ r ∈ rs, 1 ≤ r ∧ r ≤ 5) :
    rs.foldl (fun c r => add_rating i r c) (l₁ ++ p :: l₂) =
      l₁ ++ { p with
                rating := ((rs.map fun r : Int => (r : ℚ)).sum) / (rs.length : ℚ)
                votes := rs.length } :: l₂ ∧
    ∀ (r : Int) (c₁ c₂ : List Prompt) (q : Prompt), (∀ u ∈ c₁, u.id ≠ i) → q.id = i →
      add_rating i r (c₁ ++ q :: c₂) =
        c₁ ++ { q with
                  rating := (q.rating * (q.votes : ℚ) + (r : ℚ)) / ((q.votes : ℚ) + 1)
                  votes := q.votes + 1 } :: c₂ := by
  constructor
  · rw [add_rating_foldl i l₁ l₂ rs p h₁ h₂, rate_record_foldl_mean rs p h₃ h₄]
  · intro r c₁ c₂ q hq₁ hq₂
    exact add_rating_frame i r c₁ c₂ q hq₁ hq₂

/-- C3 witness: rating 5 then 3 on a fresh record yields rating 4, votes 2
(the end-to-end example of the spec). -/
theorem addRating_running_mean_witness :
    [5, 3].foldl (fun c r => add_rating 1 r c) [samplePrompt 1] =
      [{ samplePrompt 1 with rating := 4, votes := 2 }] := by
  have h := (addRating_running_mean 1 [] [] (samplePrompt 1) [5, 3] (by simp) rfl rfl rfl
    (by decide)).1
  simp only [List.nil_append] at h
  rw [h]
  norm_num [samplePrompt, Prompt.mk.injEq]

/-- C4: calling `update_usage` `k` times on a present id increments exactly
that record's `usage_count` by `k` (everything else untouched), and calling
it on an absent id leaves the collection unchanged. -/
theorem updateUsage_k_times (i k : Nat) (l₁ l₂ : List Prompt) (p : Prompt)
    (h₁ : ∀ q ∈ l₁, q.id ≠ i) (h₂ : p.id = i) :
    (update_usage i)^[k] (l₁ ++ p :: l₂) =
      l₁ ++ { p with usage_count := p.usage_count + k } :: l₂ ∧
    ∀ coll : List Prompt, (∀ q ∈ coll, q.id ≠ i) → update_usage i coll = coll :=
  ⟨update_usage_iterate i k l₁ l₂ p h₁ h₂,
   fun coll h => update_usage_not_found i coll h⟩

/-- C4 witness: three usage updates on id 1 take its counter from 0 to 3;
an update on the absent id 2 is the identity. -/
theorem updateUsage_k_times_witness :
    (update_usage 1)^[3] [samplePrompt 1] =
      [{ samplePrompt 1 with usage_count := 3 }] ∧
    update_usage 2 [samplePrompt 1] = [samplePrompt 1] := by
  have h := updateUsage_k_times 1 3 [] [] (samplePrompt 1) (by simp) rfl
  constructor
  · have h1 := h.1
    simp only [List.nil_append] at h1
    rw [h1]
    decide
  · have habs := updateUsage_k_times 2 1 [] [] (samplePrompt 2) (by simp) rfl
    exact habs.2 [samplePrompt 1] (by decide)

/-- C5: on an id absent from the collection, both `update_usage` and
`add_rating` return the collection unchanged; neither has an error channel
in its type, so no error can be surfaced — a silent no-op. -/
theorem missing_id_silent_noop (i : Nat) (r : Int) (coll : List Prompt)
    (h : ∀ q ∈ coll, q.id ≠ i) :
    update_usage i coll = coll ∧ add_rating i r coll = coll :=
  ⟨update_usage_not_found i coll h, add_rating_not_found i r coll h⟩

/-- C5 witness: id 7 is absent from the singleton collection, and both
mutators leave it untouched. -/
theorem missing_id_silent_noop_witness :
    update_usage 7 [samplePrompt 1] = [samplePrompt 1] ∧
    add_rating 7 5 [samplePrompt 1] = [samplePrompt 1] :=
  missing_id_silent_noop 7 5 [samplePrompt 1] (by decide)

/-- C10: for a present id, `update_usage` and `add_rating` keep the length
and the order, rewrite only the first matching record (later duplicates are
in the untouched tail `l₂`), and within that record change only
`usage_count`, respectively only `rating` and `votes`: every other field is
unchanged. -/
theorem mutators_frame (i : Nat) (r : Int) (l₁ l₂ : List Prompt) (p : Prompt)
    (h₁ : ∀ q ∈ l₁, q.id ≠ i) (h₂ : p.id = i) :
    update_usage i (l₁ ++ p :: l₂) =
      l₁ ++ { p with usage_count := p.usage_count + 1 } :: l₂ ∧
    add_rating i r (l₁ ++ p :: l₂) = l₁ ++ rate_record r p :: l₂ ∧
    (update_usage i (l₁ ++ p :: l₂)).length = (l₁ ++ p :: l₂).length ∧
    (add_rating i r (l₁ ++ p :: l₂)).length = (l₁ ++ p :: l₂).length ∧
    (rate_record r p).id = p.id ∧
    (rate_record r p).title = p.title ∧
    (rate_record r p).category = p.category ∧
    (rate_record r p).prompt = p.prompt ∧
    (rate_record r p).author = p.author ∧
    (rate_record r p).tags = p.tags ∧
    (rate_record r p).usage_count = p.usage_count ∧
    (rate_record r p).created_at = p.created_at ∧
    (rate_record r p).comments = p.comments := by
  refine ⟨update_usage_frame i l₁ l₂ p h₁ h₂, add_rating_frame i r l₁ l₂ p h₁ h₂,
    ?_, ?_, rfl, rfl, rfl, rfl, rfl, rfl, rfl, rfl, rfl⟩
  · rw [update_usage_frame i l₁ l₂ p h₁ h₂]
    simp
  · rw [add_rating_frame i r l₁ l₂ p h₁ h₂]
    simp

/-- C10 witness: on a collection with a duplicate id 2 in the tail, the
mutators rewrite only the first match and leave the duplicate alone. -/
theorem mutators_frame_witness :
    update_usage 2 [samplePrompt 1, samplePrompt 2, samplePrompt 2] =
      [samplePrompt 1, { samplePrompt 2 with usage_count := 1 }, samplePrompt 2] ∧
    add_rating 2 4 [samplePrompt 1, samplePrompt 2, samplePrompt 2] =
      [samplePrompt 1, rate_record 4 (samplePrompt 2), samplePrompt 2] := by
  have h := mutators_frame 2 4 [samplePrompt 1] [samplePrompt 2] (samplePrompt 2)
    (by decide) rfl
  constructor
  · have h1 := h.1
    simp only [List.cons_append, List.nil_append] at h1
    rw [h1]
    decide
  · have h2 := h.2.1
    simp only [List.cons_append, List.nil_append] at h2
    exact h2

/-- C6: the Browse sort supports exactly the three keys recent / usage /
rating; each one reorders the collection (permutation) into descending order
of its key, is stable — records with equal key values keep their original
relative order — and sorting an already-sorted-by-usage collection by usage
again produces the same order. -/
theorem sort_three_keys_stable_idempotent (coll : List Prompt) :
    (∀ k : SortKey, k = SortKey.recent ∨ k = SortKey.usage ∨ k = SortKey.rating) ∧
    (sort_prompts .recent coll).Perm coll ∧
    (sort_prompts .usage coll).Perm coll ∧
    (sort_prompts .rating coll).Perm coll ∧
    (sort_prompts .recent coll).Sorted (fun p q => q.created_at ≤ p.created_at) ∧
    (sort_prompts .usage coll).Sorted (fun p q => q.usage_count ≤ p.usage_count) ∧
    (sort_prompts .rating coll).Sorted (fun p q => q.rating ≤ p.rating) ∧
    (∀ v : String,
      (sort_prompts .recent coll).filter (fun p => decide (p.created_at = v)) =
        coll.filter (fun p => decide (p.created_at = v))) ∧
    (∀ v : Nat,
      (sort_prompts .usage coll).filter (fun p => decide (p.usage_count = v)) =
        coll.filter (fun p => decide (p.usage_count = v))) ∧
    (∀ v : ℚ,
      (sort_prompts .rating coll).filter (fun p => decide (p.rating = v)) =
        coll.filter (fun p => decide (p.rating = v))) ∧
    sort_prompts .usage (sort_prompts .usage coll) = sort_prompts .usage coll := by
  refine ⟨fun k => by cases k <;> simp, sortByKey_perm _ coll, sortByKey_perm _ coll,
    sortByKey_perm _ coll, sortByKey_sorted _ coll, sortByKey_sorted _ coll,
    sortByKey_sorted _ coll, fun v => ?_, fun v => ?_, fun v => ?_,
    sortByKey_idem _ coll⟩
  · convert sortByKey_filter_key Prompt.created_at v coll using 2 <;>
      (funext p; congr 1)
  · exact sortByKey_filter_key Prompt.usage_count v coll
  · exact sortByKey_filter_key Prompt.rating v coll

/-- C7: `avg_rating` agrees with the spec's `averageRating` — the mean of
`rating` over exactly the records with `votes > 0` — and returns 0 on the
empty collection and whenever every record has `votes = 0`; in the dividing
branch the divisor is positive, so no division by zero occurs. -/
theorem averageRating_ok (coll : List Prompt) :
    avg_rating coll = averageRating_spec coll ∧
    avg_rating [] = 0 ∧
    ((∀ p ∈ coll, p.votes = 0) → avg_rating coll = 0) ∧
    (coll.any (fun p => decide (0 < p.votes)) = true →
      0 < (coll.filter (fun p => decide (0 < p.votes))).length) := by
  have hlen : coll.any (fun p => decide (0 < p.votes)) = true →
      0 < (coll.filter (fun p => decide (0 < p.votes))).length := by
    intro h
    rw [List.any_eq_true] at h
    obtain ⟨p, hp, hpv⟩ := h
    exact List.length_pos.mpr (List.ne_nil_of_mem (List.mem_filter.mpr ⟨hp, hpv⟩))
  refine ⟨?_, rfl, ?_, hlen⟩
  · by_cases h : coll.any (fun p => decide (0 < p.votes)) = true
    · have hpos := hlen h
      rw [avg_rating, if_pos h, averageRating_spec, if_neg (by omega)]
    · have hnil : coll.filter (fun p => decide (0 < p.votes)) = [] := by
        rw [List.filter_eq_nil_iff]
        intro p hp hc
        exact h (List.any_eq_true.mpr ⟨p, hp, hc⟩)
      rw [avg_rating, if_neg h, averageRating_spec, if_pos (by rw [hnil]; rfl)]
  · intro hall
    have hany : coll.any (fun p => decide (0 < p.votes)) = false := by
      rw [List.any_eq_false]
      intro p hp
      simp [hall p hp]
    rw [avg_rating, hany]
    simp

/-- C7 witness: on a collection whose only record has votes 0, `avg_rating`
agrees with the spec function and is 0. -/
theorem averageRating_ok_witness :
    avg_rating [samplePrompt 1] = averageRating_spec [samplePrompt 1] ∧
    avg_rating [samplePrompt 1] = 0 := by
  have h := averageRating_ok [samplePrompt 1]
  exact ⟨h.1, h.2.2.1 (by decide)⟩

/-- C8: `top_used` is the first 5 records of the collection sorted descending
by `usage_count`, and `top_rated` first drops every `votes = 0` record, then
sorts the rest descending by `rating` and takes the first 5 (matching the
spec-side `topByUsage`/`topByRating` at n = 5); every record in `top_rated`
has positive votes, and both lists are sorted descending by their key. -/
theorem topN_refines_spec (coll : List Prompt) :
    top_used coll = topByUsage_spec 5 coll ∧
    top_rated coll = topByRating_spec 5 coll ∧
    (∀ p ∈ top_rated coll, 0 < p.votes) ∧
    (top_used coll).Sorted (fun p q => q.usage_count ≤ p.usage_count) ∧
    (top_rated coll).Sorted (fun p q => q.rating ≤ p.rating) := by
  refine ⟨rfl, rfl, ?_, ?_, ?_⟩
  · intro p hp
    have hsort : p ∈ sortByKey Prompt.rating
        (coll.filter fun q => decide (0 < q.votes)) :=
      List.take_subset 5 _ hp
    have hmem := (sortByKey_perm Prompt.rating _).mem_iff.mp hsort
    have := (List.mem_filter.mp hmem).2
    simpa using this
  · exact List.Pairwise.sublist (List.take_sublist 5 _)
      (sortByKey_sorted Prompt.usage_count coll)
  · exact List.Pairwise.sublist (List.take_sublist 5 _)
      (sortByKey_sorted Prompt.rating _)

/-- C8 witness: on a singleton collection with a rated record, `top_used` and
`top_rated` agree with the spec functions and the one record in `top_rated`
has positive votes. -/
theorem topN_refines_spec_witness :
    top_used [ratedSample] = topByUsage_spec 5 [ratedSample] ∧
    top_rated [ratedSample] = topByRating_spec 5 [ratedSample] ∧
    0 < ratedSample.votes := by
  have h := topN_refines_spec [ratedSample]
  refine ⟨h.1, h.2.1, h.2.2.1 ratedSample ?_⟩
  show ratedSample ∈ top_rated [ratedSample]
  simp [top_rated, sortByKey, ratedSample, samplePrompt]

/-- C9: for a non-empty term, `search_filter` keeps exactly the records whose
lowered title, lowered prompt body or some lowered tag contains the lowered
term as a contiguous substring; the empty term is a pass-through. -/
theorem search_characterization (term : String) (coll : List Prompt) :
    search_filter "" coll = coll ∧
    (term ≠ "" → ∀ p : Prompt,
      p ∈ search_filter term coll ↔
        p ∈ coll ∧
          (term.toLower.data <:+: p.title.toLower.data ∨
           term.toLower.data <:+: p.prompt.toLower.data ∨
           ∃ tag ∈ p.tags, term.toLower.data <:+: tag.toLower.data)) := by
  refine ⟨by simp [search_filter], fun hterm p => ?_⟩
  rw [search_filter, if_neg hterm, List.mem_filter]
  simp [matches_search, List.any_eq_true, or_assoc]

/-- C9 witness: the term "od" matches the record whose body is "body", and
the characterization holds on that concrete collection. -/
theorem search_characterization_witness :
    samplePrompt 1 ∈ search_filter "od" [samplePrompt 1] ↔
      samplePrompt 1 ∈ [samplePrompt 1] ∧
        ("od".toLower.data <:+: (samplePrompt 1).title.toLower.data ∨
         "od".toLower.data <:+: (samplePrompt 1).prompt.toLower.data ∨
         ∃ tag ∈ (samplePrompt 1).tags, "od".toLower.data <:+: tag.toLower.data) :=
  (search_characterization "od" [samplePrompt 1]).2 (by decide) (samplePrompt 1)
